import Mathlib

/-!
Verification of the donor-appointment automation script
(`01_donor_automation_with_calendar_appointment_as_github.py`).

The script is a linear pipeline: environment validation, Google-calendar
quota queries, target-date generation, an HTML-scraping booking session and
calendar writes.  This file shallowly embeds the policy functions and the
top-level control flow:

* datetimes are modelled at minute granularity as `Nat` minutes since the
  proleptic-Gregorian epoch (`toOrdinal 1 1 1 = 1`, a Monday, matching
  Python's `date.toordinal`/`weekday`);
* fallible library calls (`base64.b64decode`, `bytes.decode("utf-8")`,
  `json.loads`) are modelled as executable `Except`-valued functions;
* the module top level (environment validation, temp-file creation,
  `argparse`, the `try/finally` body) is modelled as a pure function
  producing an effect trace, an outcome and the final on-disk state of the
  temporary credential file.
-/

namespace Donor

/-! ## Dates and times (minute granularity) -/

/-- Proleptic-Gregorian leap year, as in Python's `datetime`. -/
def isLeap (y : Nat) : Bool :=
  y % 4 == 0 && (y % 100 != 0 || y % 400 == 0)

/-- Days in the months strictly before month `m` of a non-leap year. -/
def cumMonthDays (m : Nat) : Nat :=
  match m with
  | 1 => 0 | 2 => 31 | 3 => 59 | 4 => 90 | 5 => 120 | 6 => 151
  | 7 => 181 | 8 => 212 | 9 => 243 | 10 => 273 | 11 => 304 | _ => 334

/-- Days strictly before January 1st of year `y` (proleptic Gregorian). -/
def daysBeforeYear (y : Nat) : Nat :=
  365 * (y - 1) + (y - 1) / 4 + (y - 1) / 400 - (y - 1) / 100

/-- Python `date(y, m, d).toordinal()`: day number with `toOrdinal 1 1 1 = 1`. -/
def toOrdinal (y m d : Nat) : Nat :=
  daysBeforeYear y + cumMonthDays m + (if 2 < m && isLeap y then 1 else 0) + d

/-- A wall-clock datetime at minute granularity. -/
structure DateTime where
  year : Nat
  month : Nat
  day : Nat
  minuteOfDay : Nat
deriving DecidableEq, Repr

/-- Minutes since the epoch of a `DateTime`. -/
def toMin (t : DateTime) : Nat :=
  toOrdinal t.year t.month t.day * 1440 + t.minuteOfDay

/-- Python `datetime.weekday()` on a minute timestamp: Monday = 0. -/
def weekdayOf (t : Nat) : Nat :=
  (t / 1440 + 6) % 7

/-- The day ordinal of a minute timestamp (Python `.date()` / `strftime("%Y-%m-%d")`). -/
def dayOf (t : Nat) : Nat :=
  t / 1440

/-! ## `parse_time` (source lines 181-187)

`re.match(r"(\d+):(\d+)\sUhr", s)` anchored at the start of the string:
a maximal nonempty digit run, `:`, a maximal nonempty digit run, one
whitespace character, then the literal `Uhr`; trailing text is ignored.
Digits are modelled as ASCII digits. -/

/-- Decimal value of a digit run (Python `int`). -/
def digitsToNat (ds : List Char) : Nat :=
  ds.foldl (fun acc c => acc * 10 + (c.toNat - 48)) 0

/-- Characters matched by the regex class `\s`. -/
def isSpaceChar (c : Char) : Bool :=
  c == ' ' || c == '\t' || c == '\n' || c == '\r' || c == '\x0b' || c == '\x0c'

/-- Model of `parse_time`: converts a `'13:30 Uhr'`-style string to minutes since midnight,
`none` when the regex does not match (source lines 181-187). -/
def parse_time (s : String) : Option Nat :=
  let cs := s.toList
  let ds1 := cs.takeWhile Char.isDigit
  let r1 := cs.drop ds1.length
  match ds1, r1 with
  | [], _ => none
  | _, ':' :: r2 =>
    let ds2 := r2.takeWhile Char.isDigit
    let r3 := r2.drop ds2.length
    match ds2, r3 with
    | [], _ => none
    | _, c :: 'U' :: 'h' :: 'r' :: _ =>
      if isSpaceChar c then some (digitsToNat ds1 * 60 + digitsToNat ds2) else none
    | _, _ => none
  | _, _ => none

/-! ## Slot selection (source lines 537-544) -/

/-- A scraped time slot (source `fetch_slots`, lines 480-489). -/
structure Slot where
  time : String
  available_slots : Nat
  url : String
deriving DecidableEq, Repr

/-- Python truthiness of `parse_time(x)`: `None` and `0` are falsy.
`parse_time(slot["time"]) and parse_time(slot["time"]) > min_time_minutes`
(source line 539). -/
def slotValid (s : Slot) : Bool :=
  match parse_time s.time with
  | none => false
  | some t => if t = 0 then false else decide (780 < t)

/-- Sort key used by `min(valid_slots, key=...)`; on the valid slots it is
always `some t` and the default is never reached. -/
def slotKey (s : Slot) : Nat :=
  (parse_time s.time).getD 0

/-- Python `min` with a key: keeps the earliest element among those with the
strictly smallest key (first wins on ties). -/
def minByKey (best : Slot) : List Slot → Slot
  | [] => best
  | s :: rest => if slotKey s < slotKey best then minByKey s rest else minByKey best rest

/-- Slot selection for one date (source lines 537-544): keep slots whose
parsed time is truthy and after 13:00 (`780` minutes), pick the one with the
earliest start; `none` means the date is skipped (`continue`). -/
def selectSlot (slots : List Slot) : Option Slot :=
  let valid := slots.filter slotValid
  match valid with
  | [] => none
  | v :: vs => some (minByKey v vs)

/-! ## Calendar events and `check_minimum_gap` (source lines 100-126)

A Google-calendar event is modelled by its summary, description and start
timestamp (minutes).  `service.events().list(timeMin, timeMax, singleEvents,
orderBy='startTime')` is modelled as filtering the calendar to events whose
start lies in `[timeMin, timeMax)`, sorted by start time. -/

/-- A calendar event as used by the script: summary, description, start. -/
structure Event where
  summary : String
  description : String
  start : Nat
deriving DecidableEq, Repr

/-- Boolean list-infix test (`needle` occurs contiguously in `haystack`). -/
def isPrefB : List Char → List Char → Bool
  | [], _ => true
  | _ :: _, [] => false
  | a :: as, b :: bs => a == b && isPrefB as bs

/-- Boolean contiguous-sublist test. -/
def isInfB (p : List Char) : List Char → Bool
  | [] => p.isEmpty
  | c :: tl => isPrefB p (c :: tl) || isInfB p tl

/-- ASCII lowering of one character (as in `str.lower` on ASCII text). -/
def lowerChar (c : Char) : Char :=
  if 'A' ≤ c && c ≤ 'Z' then Char.ofNat (c.toNat + 32) else c

/-- Python `'plasma' in s.lower()` (ASCII lowering). -/
def hasPlasma (s : String) : Bool :=
  isInfB "plasma".toList (s.toList.map lowerChar)

/-- Test `'plasma' in summary or 'plasma' in description` (source lines 92, 119). -/
def isPlasmaEvent (e : Event) : Bool :=
  hasPlasma e.summary || hasPlasma e.description

/-- Model of `service.events().list(...)`: events starting in
`[timeMin, timeMax)`, ordered by start time. -/
def listEvents (cal : List Event) (timeMin timeMax : Nat) : List Event :=
  (cal.filter (fun e => decide (timeMin ≤ e.start) && decide (e.start < timeMax))).insertionSort
    (fun a b => a.start ≤ b.start)

/-- Loop body of `check_minimum_gap` (source lines 116-124): return
`(False, event_date)` at the first plasma event whose day delta to the
target is at most 2, else `(True, None)`. -/
def gapLoop (targetDay : Nat) : List Event → Bool × Option Nat
  | [] => (true, none)
  | e :: rest =>
    if isPlasmaEvent e then
      if (targetDay : Int) - (dayOf e.start : Int) ≤ 2 then (false, some (dayOf e.start))
      else gapLoop targetDay rest
    else gapLoop targetDay rest

/-- Model of `check_minimum_gap` (source lines 100-126): query the three days before
midnight of the target date and reject when a plasma event lies within two
days before it.  The first component is `can_book`. -/
def check_minimum_gap (cal : List Event) (targetDay : Nat) : Bool × Option Nat :=
  let timeMin := targetDay * 1440 - 3 * 1440
  let timeMax := targetDay * 1440
  gapLoop targetDay (listEvents cal timeMin timeMax)

/-! ## `get_target_dates` (source lines 189-236) -/

/-- Minutes of `datetime(year, 5, 1)` (source line 194). -/
def mayStartOf (now : DateTime) : Nat :=
  toOrdinal now.year 5 1 * 1440

/-- Minutes of `datetime(year, 8, 31)` (source line 195). -/
def augEndOf (now : DateTime) : Nat :=
  toOrdinal now.year 8 31 * 1440

/-- The later of now and May 1: `start_date = max(now, may_start)` (source line 198). -/
def startOf (now : DateTime) : Nat :=
  max (toMin now) (mayStartOf now)

/-- First Monday on or after `start_date` (source lines 200-202):
`current_date += timedelta(days=(7 - current_date.weekday()) % 7)`. -/
def firstMondayOf (now : DateTime) : Nat :=
  let s := startOf now
  if weekdayOf s = 0 then s else s + (7 - weekdayOf s) % 7 * 1440

/-- One loop iteration's `week_dates` (source lines 208-230): Monday (or
Tuesday when Monday falls on a weekend), plus a Thursday for two-appointment
weeks; then keep the dates strictly after `now` and render them as day
ordinals (`strftime("%Y-%m-%d")`). -/
def weekBody (nowMin augEnd monday : Nat) (two : Bool) : List Nat :=
  let wd1 : List Nat :=
    if weekdayOf monday ≠ 5 ∧ weekdayOf monday ≠ 6 then [monday]
    else
      let tuesday := monday + 1440
      if (weekdayOf tuesday ≠ 5 ∧ weekdayOf tuesday ≠ 6) ∧ tuesday ≤ augEnd then [tuesday]
      else []
  let wd2 : List Nat :=
    match wd1 with
    | [] => wd1
    | first :: _ =>
      if two then
        let thursday :=
          if weekdayOf first = 1 then first + 3 * 1440
          else first + ((3 - (weekdayOf first : Int)) % 7).toNat * 1440
        if (weekdayOf thursday ≠ 5 ∧ weekdayOf thursday ≠ 6) ∧ thursday ≤ augEnd then
          wd1 ++ [thursday]
        else wd1
      else wd1
  (wd2.filter (fun d => decide (nowMin < d))).map dayOf

/-- The `while` loop of `get_target_dates` (source lines 207-234), with the
week budget as fuel: stop when the current Monday passes `aug_end` or after
8 iterations, alternating the two-appointment flag. -/
def bookWeeks (nowMin augEnd : Nat) : Nat → Nat → Bool → List Nat
  | 0, _, _ => []
  | fuel + 1, cur, two =>
    if cur ≤ augEnd then
      weekBody nowMin augEnd cur two ++ bookWeeks nowMin augEnd fuel (cur + 7 * 1440) (!two)
    else []

/-- Model of `get_target_dates` (source lines 189-236): up to 16 day ordinals between
May 1 and Aug 31 of the current year, walking at most 8 weeks from the first
Monday on or after `max(now, may_start)`, starting with a two-appointment
week. -/
def get_target_dates (now : DateTime) : List Nat :=
  (bookWeeks (toMin now) (augEndOf now) 8 (firstMondayOf now) true).take 16

/-! ## `try_nearby_dates` (source lines 238-248) -/

/-- An entry of `available_dates` (source lines 460-470). -/
structure AvailDate where
  date : Nat
  href : String
deriving DecidableEq, Repr

/-- Loop of `try_nearby_dates`: walk the offsets in order, skip offsets not
strictly after today, return the first date present among the open dates. -/
def nearbyLoop (targetDay : Nat) (avail : List AvailDate) (nowMin : Nat) :
    List Int → Option Int
  | [] => none
  | o :: rest =>
    let nb : Int := (targetDay : Int) + o
    if nb ≤ (dayOf nowMin : Int) then nearbyLoop targetDay avail nowMin rest
    else if avail.any (fun d => (d.date : Int) == nb) then some nb
    else nearbyLoop targetDay avail nowMin rest

/-- Model of `try_nearby_dates` (source lines 238-248). -/
def try_nearby_dates (targetDay : Nat) (avail : List AvailDate) (nowMin : Nat) : Option Int :=
  nearbyLoop targetDay avail nowMin [-5, -4, -3, -2, -1, 1, 2, 3, 4, 5]

/-! ## CSRF-token extraction (source lines 307-326 and 577-588)

The parsed markup is abstracted to the queries the script performs on it:
the `input` elements in document order with their `name` and optional
`value` attributes, the `content` of a `meta[name=csrf-token]` tag when one
exists, and the group captured by the
`csrfToken\s*=\s*['"]([^'"]+)['"]` search over the inline scripts when it
matches (the capture is nonempty by construction of that regex, but the
model does not assume it). -/

/-- The markup facts the token extraction consults. -/
structure PageDoc where
  inputs : List (String × Option String)
  metaCsrf : Option String
  scriptToken : Option String
deriving DecidableEq, Repr

/-- Lookup `soup.find("input", ...)` by name: the first input of that name. -/
def findInput (doc : PageDoc) (nm : String) : Option (String × Option String) :=
  doc.inputs.find? (fun p => p.1 == nm)

/-- Python truthiness of an optional string: `None` and `""` are falsy. -/
def optTruthy : Option String → Bool
  | none => false
  | some s => s != ""

/-- The `or`-chain over the four input names (source lines 307-312 and
577-582): the first input element present under any of the four names. -/
def csrfInputOf (doc : PageDoc) : Option (String × Option String) :=
  (((findInput doc "_csrf").orElse fun _ => findInput doc "_token").orElse fun _ =>
      findInput doc "csrf_token").orElse fun _ =>
    findInput doc "authenticity_token"

/-- Step `csrf_token = csrf_input["value"] if csrf_input else None`: indexing a
tag without the attribute raises `KeyError`. -/
def csrfFromInputs (doc : PageDoc) : Except String (Option String) :=
  match csrfInputOf doc with
  | none => .ok none
  | some inp =>
    match inp.2 with
    | none => .error "KeyError: value"
    | some v => .ok (some v)

/-- Login-page extraction (source lines 307-326): inputs, then the meta tag,
then the inline-script pattern, then `raise ValueError("No CSRF token found")`. -/
def extract_csrf_login (doc : PageDoc) : Except String String :=
  match csrfFromInputs doc with
  | .error e => .error e
  | .ok t1 =>
    let t2 := if optTruthy t1 then t1 else doc.metaCsrf
    let t3 := if optTruthy t2 then t2 else doc.scriptToken
    if optTruthy t3 then .ok (t3.getD "") else .error "No CSRF token found"

/-- Reservation-form extraction (source lines 577-588): inputs, then the
meta tag, then failure — there is no inline-script fallback on this page. -/
def extract_csrf_reservation (doc : PageDoc) : Except String String :=
  match csrfFromInputs doc with
  | .error e => .error e
  | .ok t1 =>
    let t2 := if optTruthy t1 then t1 else doc.metaCsrf
    if optTruthy t2 then .ok (t2.getD "") else .error "No CSRF token found"

/-! ## Models of `base64.b64decode`, `bytes.decode("utf-8")`, `json.loads`

These are the library calls of `decode_reservation_context` (source lines
166-173) and of the service-credential decoding (source lines 31-39), each
modelled as an executable `Except`-valued function: `b64decode` over the
standard alphabet with non-alphabet characters discarded and strict trailing
padding, a strict UTF-8 decoder (overlongs and surrogates rejected), and a
recursive-descent JSON reader storing numbers by their lexeme. -/

/-- Value of a standard-alphabet base64 character. -/
def b64CharVal (c : Char) : Option Nat :=
  if 'A' ≤ c && c ≤ 'Z' then some (c.toNat - 65)
  else if 'a' ≤ c && c ≤ 'z' then some (c.toNat - 97 + 26)
  else if '0' ≤ c && c ≤ '9' then some (c.toNat - 48 + 52)
  else if c == '+' then some 62
  else if c == '/' then some 63
  else none

/-- Decode 4-character groups to bytes; `=` padding is allowed only at the
very end (one or two characters). -/
def b64Quads : List Char → Except String (List Nat)
  | [] => .ok []
  | c1 :: c2 :: c3 :: c4 :: rest =>
    match b64CharVal c1, b64CharVal c2, b64CharVal c3, b64CharVal c4 with
    | some v1, some v2, some v3, some v4 =>
      (b64Quads rest).map
        (fun tl => (v1 * 4 + v2 / 16) :: (v2 % 16 * 16 + v3 / 4) :: (v3 % 4 * 64 + v4) :: tl)
    | some v1, some v2, some v3, none =>
      if c4 == '=' && rest.isEmpty then .ok [v1 * 4 + v2 / 16, v2 % 16 * 16 + v3 / 4]
      else .error "Invalid base64-encoded string"
    | some v1, some v2, none, none =>
      if c3 == '=' && c4 == '=' && rest.isEmpty then .ok [v1 * 4 + v2 / 16]
      else .error "Invalid base64-encoded string"
    | _, _, _, _ => .error "Invalid base64-encoded string"
  | _ => .error "Incorrect padding"

/-- Model of `base64.b64decode(s)` (default `validate=False`): the string
must be ASCII; characters outside the alphabet and `=` are discarded; the
remainder must consist of 4-character groups with standard padding. -/
def pyB64Decode (s : String) : Except String (List Nat) :=
  if s.toList.any (fun c => 128 ≤ c.toNat) then
    .error "string argument should contain only ASCII characters"
  else
    b64Quads (s.toList.filter (fun c => (b64CharVal c).isSome || c == '='))

/-- One strict UTF-8 decoding step over a byte list, fuelled by list length. -/
def utf8Go : Nat → List Nat → Except String (List Char)
  | _, [] => .ok []
  | 0, _ :: _ => .error "utf-8 codec: fuel exhausted"
  | fuel + 1, b :: rest =>
    if b < 0x80 then (utf8Go fuel rest).map (fun cs => Char.ofNat b :: cs)
    else if b < 0xC2 then .error "utf-8 codec: invalid start byte"
    else if b < 0xE0 then
      match rest with
      | b2 :: r2 =>
        if 0x80 ≤ b2 && b2 < 0xC0 then
          (utf8Go fuel r2).map (fun cs => Char.ofNat ((b - 0xC0) * 0x40 + (b2 - 0x80)) :: cs)
        else .error "utf-8 codec: invalid continuation byte"
      | [] => .error "utf-8 codec: unexpected end of data"
    else if b < 0xF0 then
      match rest with
      | b2 :: b3 :: r3 =>
        let lo2 := if b == 0xE0 then 0xA0 else 0x80
        let hi2 := if b == 0xED then 0x9F else 0xBF
        if lo2 ≤ b2 && b2 ≤ hi2 && 0x80 ≤ b3 && b3 < 0xC0 then
          (utf8Go fuel r3).map
            (fun cs => Char.ofNat ((b - 0xE0) * 0x1000 + (b2 - 0x80) * 0x40 + (b3 - 0x80)) :: cs)
        else .error "utf-8 codec: invalid continuation byte"
      | _ => .error "utf-8 codec: unexpected end of data"
    else if b < 0xF5 then
      match rest with
      | b2 :: b3 :: b4 :: r4 =>
        let lo2 := if b == 0xF0 then 0x90 else 0x80
        let hi2 := if b == 0xF4 then 0x8F else 0xBF
        if lo2 ≤ b2 && b2 ≤ hi2 && 0x80 ≤ b3 && b3 < 0xC0 && 0x80 ≤ b4 && b4 < 0xC0 then
          (utf8Go fuel r4).map
            (fun cs =>
              Char.ofNat
                ((b - 0xF0) * 0x40000 + (b2 - 0x80) * 0x1000 + (b3 - 0x80) * 0x40 + (b4 - 0x80)) :: cs)
        else .error "utf-8 codec: invalid continuation byte"
      | _ => .error "utf-8 codec: unexpected end of data"
    else .error "utf-8 codec: invalid start byte"

/-- Model of `bytes.decode("utf-8")` (strict). -/
def pyUtf8Decode (bs : List Nat) : Except String String :=
  (utf8Go bs.length bs).map (fun cs => String.mk cs)

/-- The Python object produced by `json.loads`: numbers are kept by lexeme. -/
inductive PyVal where
  | null : PyVal
  | bool (b : Bool) : PyVal
  | num (lit : String) : PyVal
  | str (s : String) : PyVal
  | arr (xs : List PyVal) : PyVal
  | obj (fields : List (String × PyVal)) : PyVal

/-- JSON whitespace skipping. -/
def jsWs (cs : List Char) : List Char :=
  cs.dropWhile (fun c => c == ' ' || c == '\t' || c == '\n' || c == '\r')

/-- Hexadecimal digit value. -/
def hexVal (c : Char) : Option Nat :=
  if '0' ≤ c && c ≤ '9' then some (c.toNat - 48)
  else if 'a' ≤ c && c ≤ 'f' then some (c.toNat - 97 + 10)
  else if 'A' ≤ c && c ≤ 'F' then some (c.toNat - 65 + 10)
  else none

/-- JSON string body after the opening quote: escapes decoded, raw control
characters rejected, valid `\uXXXX` surrogate pairs combined and lone
surrogates replaced by U+FFFD (Lean characters cannot hold them). -/
def jsStrGo : Nat → List Char → List Char → Except String (String × List Char)
  | 0, _, _ => .error "Unterminated string"
  | _ + 1, _, [] => .error "Unterminated string"
  | fuel + 1, acc, c :: rest =>
    if c == '"' then .ok (String.mk acc.reverse, rest)
    else if c == '\\' then
      match rest with
      | [] => .error "Unterminated string"
      | e :: r2 =>
        if e == '"' then jsStrGo fuel ('"' :: acc) r2
        else if e == '\\' then jsStrGo fuel ('\\' :: acc) r2
        else if e == '/' then jsStrGo fuel ('/' :: acc) r2
        else if e == 'b' then jsStrGo fuel ('\x08' :: acc) r2
        else if e == 'f' then jsStrGo fuel ('\x0c' :: acc) r2
        else if e == 'n' then jsStrGo fuel ('\n' :: acc) r2
        else if e == 'r' then jsStrGo fuel ('\r' :: acc) r2
        else if e == 't' then jsStrGo fuel ('\t' :: acc) r2
        else if e == 'u' then
          match r2 with
          | h1 :: h2 :: h3 :: h4 :: r3 =>
            match hexVal h1, hexVal h2, hexVal h3, hexVal h4 with
            | some a, some b, some c3, some d =>
              let code := a * 4096 + b * 256 + c3 * 16 + d
              if code < 0xD800 || 0xE000 ≤ code then jsStrGo fuel (Char.ofNat code :: acc) r3
              else
                match r3 with
                | '\\' :: 'u' :: g1 :: g2 :: g3 :: g4 :: r4 =>
                  match hexVal g1, hexVal g2, hexVal g3, hexVal g4 with
                  | some a2, some b2, some c2, some d2 =>
                    let lo := a2 * 4096 + b2 * 256 + c2 * 16 + d2
                    if code ≤ 0xDBFF && 0xDC00 ≤ lo && lo ≤ 0xDFFF then
                      jsStrGo fuel
                        (Char.ofNat (0x10000 + (code - 0xD800) * 0x400 + (lo - 0xDC00)) :: acc) r4
                    else jsStrGo fuel ('\uFFFD' :: acc) r3
                  | _, _, _, _ => jsStrGo fuel ('\uFFFD' :: acc) r3
                | _ => jsStrGo fuel ('\uFFFD' :: acc) r3
            | _, _, _, _ => .error "Invalid \x5cuXXXX escape"
          | _ => .error "Invalid \x5cuXXXX escape"
        else .error "Invalid \x5cescape"
    else if c.toNat < 0x20 then .error "Invalid control character"
    else jsStrGo fuel (c :: acc) rest

/-- Optional fraction and exponent of a JSON number lexeme. -/
def numTail (intPart : String) (cs : List Char) : String × List Char :=
  let (fr, r2) := match cs with
    | '.' :: r3 =>
      let ds := r3.takeWhile Char.isDigit
      if ds.isEmpty then (([] : List Char), cs) else ('.' :: ds, r3.drop ds.length)
    | _ => ([], cs)
  let (ex, r4) := match r2 with
    | e :: r5 =>
      if e == 'e' || e == 'E' then
        match r5 with
        | s :: r6 =>
          if s == '+' || s == '-' then
            let ds := r6.takeWhile Char.isDigit
            if ds.isEmpty then (([] : List Char), r2) else (e :: s :: ds, r6.drop ds.length)
          else
            let ds := r5.takeWhile Char.isDigit
            if ds.isEmpty then (([] : List Char), r2) else (e :: ds, r5.drop ds.length)
        | [] => ([], r2)
      else ([], r2)
    | [] => ([], r2)
  (intPart ++ String.mk fr ++ String.mk ex, r4)

/-- JSON number lexeme `-?(0|[1-9]\d*)(\.\d+)?([eE][+-]?\d+)?`. -/
def jsNum (cs : List Char) : Except String (String × List Char) :=
  let (sign, r1) := match cs with
    | '-' :: r => ([('-' : Char)], r)
    | _ => ([], cs)
  match r1 with
  | [] => .error "Expecting value"
  | c :: rest =>
    if c == '0' then .ok (numTail (String.mk (sign ++ [c])) rest)
    else if c.isDigit then
      let ds := rest.takeWhile Char.isDigit
      .ok (numTail (String.mk (sign ++ c :: ds)) (rest.drop ds.length))
    else .error "Expecting value"

mutual

/-- Recursive-descent JSON value (model of `json.loads`' scanner), fuelled. -/
def jsVal (fuel : Nat) (cs : List Char) : Except String (PyVal × List Char) :=
  match fuel with
  | 0 => .error "Maximum recursion depth exceeded"
  | fuel + 1 =>
    match jsWs cs with
    | [] => .error "Expecting value"
    | '"' :: rest => (jsStrGo (rest.length + 1) [] rest).map (fun p => (PyVal.str p.1, p.2))
    | '{' :: rest =>
      match jsWs rest with
      | '}' :: r2 => .ok (PyVal.obj [], r2)
      | _ => jsObjItems fuel rest []
    | '[' :: rest =>
      match jsWs rest with
      | ']' :: r2 => .ok (PyVal.arr [], r2)
      | _ => jsArrItems fuel rest []
    | 't' :: 'r' :: 'u' :: 'e' :: rest => .ok (PyVal.bool true, rest)
    | 'f' :: 'a' :: 'l' :: 's' :: 'e' :: rest => .ok (PyVal.bool false, rest)
    | 'n' :: 'u' :: 'l' :: 'l' :: rest => .ok (PyVal.null, rest)
    | c :: rest =>
      if c == '-' || c.isDigit then (jsNum (c :: rest)).map (fun p => (PyVal.num p.1, p.2))
      else .error "Expecting value"

/-- Comma-separated array items up to `]`. -/
def jsArrItems (fuel : Nat) (cs : List Char) (acc : List PyVal) :
    Except String (PyVal × List Char) :=
  match fuel with
  | 0 => .error "Maximum recursion depth exceeded"
  | fuel + 1 =>
    match jsVal fuel cs with
    | .error e => .error e
    | .ok (v, r) =>
      match jsWs r with
      | ',' :: r2 => jsArrItems fuel r2 (acc ++ [v])
      | ']' :: r2 => .ok (PyVal.arr (acc ++ [v]), r2)
      | _ => .error "Expecting comma delimiter"

/-- Comma-separated `"key": value` members up to `}`. -/
def jsObjItems (fuel : Nat) (cs : List Char) (acc : List (String × PyVal)) :
    Except String (PyVal × List Char) :=
  match fuel with
  | 0 => .error "Maximum recursion depth exceeded"
  | fuel + 1 =>
    match jsWs cs with
    | '"' :: rest =>
      match jsStrGo (rest.length + 1) [] rest with
      | .error e => .error e
      | .ok (k, r1) =>
        match jsWs r1 with
        | ':' :: r2 =>
          match jsVal fuel r2 with
          | .error e => .error e
          | .ok (v, r3) =>
            match jsWs r3 with
            | ',' :: r4 => jsObjItems fuel r4 (acc ++ [(k, v)])
            | '}' :: r4 => .ok (PyVal.obj (acc ++ [(k, v)]), r4)
            | _ => .error "Expecting comma delimiter"
        | _ => .error "Expecting colon delimiter"
    | _ => .error "Expecting property name enclosed in double quotes"

end

/-- Model of `json.loads`: parse one value and require only whitespace after. -/
def pyJsonLoads (s : String) : Except String PyVal :=
  match jsVal (2 * s.toList.length + 4) s.toList with
  | .error e => .error e
  | .ok (v, r) =>
    match jsWs r with
    | [] => .ok v
    | _ => .error "Extra data"

/-- Pipeline `base64.b64decode(s).decode("utf-8")` then `json.loads` — the shared
decoding pipeline of source lines 31-33 and 168-170. -/
def pyJsonPipeline (s : String) : Except String PyVal :=
  match pyB64Decode s with
  | .error e => .error e
  | .ok bs =>
    match pyUtf8Decode bs with
    | .error e => .error e
    | .ok txt => pyJsonLoads txt

/-- Model of `decode_reservation_context` (source lines 166-173): the decoded object,
or the empty dict when any stage of the pipeline raises. -/
def decode_reservation_context (context : String) : PyVal :=
  match pyJsonPipeline context with
  | .ok v => v
  | .error _ => PyVal.obj []

/-- Service-credential decoding (source lines 31-39): the same pipeline, but
a failure is re-raised as `ValueError`. -/
def decodeServiceAccount (s : String) : Except String PyVal :=
  match pyJsonPipeline s with
  | .ok v => .ok v
  | .error e => .error ("Failed to decode or parse base64-encoded SERVICE_ACCOUNT_JSON: " ++ e)

/-! ## The module top level (source lines 14-39, 250-254, 256-687)

The script's top level is modelled as a pure function over its inputs:
the six environment variables, whether the command-line arguments parse
(`argparse` calls `sys.exit` on `--help` or an unrecognised flag), the
current time, the two plasma-appointment counts the calendar queries
return, and an oracle for the login-and-booking part of the `try` body
after the booking-cap gate.  The observable result is the list of effects
performed, the outcome, and whether the temporary credential file is still
on disk when the process exits. -/

/-- The six required environment variables (source lines 15-20). -/
structure Env where
  surname : Option String
  donorId : Option String
  email : Option String
  calendarId : Option String
  serviceJson : Option String
  location : Option String
deriving DecidableEq, Repr

/-- Check `all([SURNAME, DONOR_ID, RESERVATION_EMAIL, CALENDAR_ID,
SERVICE_ACCOUNT_JSON, APPOINTMENT_LOCATION])` (source line 23): unset and
empty values are falsy. -/
def envPresent (env : Env) : Bool :=
  [env.surname, env.donorId, env.email, env.calendarId, env.serviceJson,
    env.location].all optTruthy

/-- Scan for `[^@]+\.[^@]` as a prefix of the part after the first `@`:
`seen` records whether at least one non-`@` character precedes the dot. -/
def emailTail (seen : Bool) : List Char → Bool
  | [] => false
  | c :: rest =>
    if c == '@' then false
    else if seen && c == '.' && (match rest with | d :: _ => d != '@' | [] => false) then true
    else emailTail true rest

/-- Model of `re.match(r"[^@]+@[^@]+\.[^@]+", s)` (source line 27). -/
def emailOk (s : String) : Bool :=
  let cs := s.toList
  let a := cs.takeWhile (fun c => c != '@')
  match cs.drop a.length with
  | [] => false
  | _ :: rest => !a.isEmpty && emailTail false rest

/-- Observable side effects of a run. -/
inductive Eff where
  | net : Eff
  | tmpCreate : Eff
  | tmpRemove : Eff
  | close : Eff
deriving DecidableEq, Repr

/-- How the process ends. -/
inductive Outcome where
  | ok : Outcome
  | err (msg : String) : Outcome
  | exitDuringArgs : Outcome
deriving DecidableEq, Repr

/-- Observable result of a run: effect trace, outcome, and whether the
temporary credential file is still on disk after the process exits. -/
structure RunResult where
  trace : List Eff
  outcome : Outcome
  tempOnDisk : Bool
deriving DecidableEq, Repr

/-- The booking-cap gate (source lines 283-290):
`min(16, 60 - plasma_count)` against `5 - future_count`; non-positive means
`raise ValueError`, reporting the annual limit when `plasma_count >= 60`
and the future-bookings limit otherwise. -/
def computeBookingGate (plasma_count future_count : Nat) : Except String Int :=
  let max_new_bookings_annual : Int := min 16 (60 - (plasma_count : Int))
  let max_new_bookings_future : Int := 5 - (future_count : Int)
  let max_new_bookings := min max_new_bookings_annual max_new_bookings_future
  if max_new_bookings ≤ 0 then
    if 60 ≤ plasma_count then
      .error
        s!"Cannot book: Already have {plasma_count} plasma appointments in past 365 days, exceeding limit of 60"
    else
      .error
        s!"Cannot book: Already have {future_count} future appointments, exceeding limit of 5 active bookings"
  else .ok max_new_bookings

/-- The `try` body (source lines 256-677) up to the booking-cap gate:
generate target dates, query the two plasma counts over the network, run
the gate, then hand over to the login-and-booking part (`rest`), which
yields its own effects and optional error. -/
def tryBody (now : DateTime) (plasma_count future_count : Nat)
    (rest : Int → List Eff × Option String) : List Eff × Option String :=
  if get_target_dates now = [] then ([], some "No valid target dates generated")
  else
    match computeBookingGate plasma_count future_count with
    | .error e => ([Eff.net, Eff.net], some e)
    | .ok m => (Eff.net :: Eff.net :: (rest m).1, (rest m).2)

/-- The whole module run (source lines 14-39, 250-254, 256-687): environment
validation and credential decoding happen before the temporary file exists
and before any network call; `argparse` may `sys.exit` after the file is
created but before the `try/finally` is entered; once the `try` body runs,
the `finally` block closes the session and removes the temporary file. -/
def runScript (env : Env) (argvOk : Bool) (now : DateTime)
    (plasma_count future_count : Nat) (rest : Int → List Eff × Option String) : RunResult :=
  if envPresent env = false then
    ⟨[], .err "Missing required environment variables", false⟩
  else if emailOk (env.email.getD "") = false then
    ⟨[], .err "Invalid RESERVATION_EMAIL format", false⟩
  else
    match decodeServiceAccount (env.serviceJson.getD "") with
    | .error e => ⟨[], .err e, false⟩
    | .ok _ =>
      if argvOk = false then ⟨[Eff.tmpCreate], .exitDuringArgs, true⟩
      else
        let b := tryBody now plasma_count future_count rest
        ⟨Eff.tmpCreate :: (b.1 ++ [Eff.close, Eff.tmpRemove]),
          (match b.2 with | some e => Outcome.err e | none => Outcome.ok), false⟩

/-! ## Lemmas: slot selection -/

/-- Predicate `slotValid` holds exactly on slots whose time parses to a value after
13:00 (the Python-truthiness `t = 0` case is subsumed by `780 < t`). -/
theorem slotValid_iff (s : Slot) :
    slotValid s = true ↔ ∃ t, parse_time s.time = some t ∧ 780 < t := by
  unfold slotValid
  cases hp : parse_time s.time with
  | none => simp
  | some t =>
    by_cases h0 : t = 0
    · subst h0
      simp
    · simp only [if_neg h0, decide_eq_true_eq]
      constructor
      · intro h
        exact ⟨t, rfl, h⟩
      · rintro ⟨t2, ht2, hgt⟩
        cases ht2
        exact hgt

/-- The slot key is the parsed time on slots whose time parses. -/
theorem slotKey_eq {s : Slot} {t : Nat} (h : parse_time s.time = some t) : slotKey s = t := by
  unfold slotKey
  rw [h]
  rfl

/-- Result of `minByKey` is its running best or a list element. -/
theorem minByKey_mem : ∀ (l : List Slot) (best : Slot),
    minByKey best l = best ∨ minByKey best l ∈ l
  | [], _ => Or.inl rfl
  | s :: rest, best => by
    simp only [minByKey]
    by_cases h : slotKey s < slotKey best
    · rw [if_pos h]
      rcases minByKey_mem rest s with h1 | h1
      · exact Or.inr (by rw [h1]; exact List.mem_cons_self s rest)
      · exact Or.inr (List.mem_cons_of_mem s h1)
    · rw [if_neg h]
      rcases minByKey_mem rest best with h1 | h1
      · exact Or.inl h1
      · exact Or.inr (List.mem_cons_of_mem s h1)

/-- Result of `minByKey` minimises the key over the running best and the list. -/
theorem minByKey_le : ∀ (l : List Slot) (best : Slot),
    slotKey (minByKey best l) ≤ slotKey best ∧
      ∀ s ∈ l, slotKey (minByKey best l) ≤ slotKey s
  | [], best => ⟨le_refl _, by simp⟩
  | s :: rest, best => by
    simp only [minByKey]
    by_cases h : slotKey s < slotKey best
    · rw [if_pos h]
      obtain ⟨h1, h2⟩ := minByKey_le rest s
      refine ⟨le_trans h1 (le_of_lt h), ?_⟩
      intro x hx
      rcases List.mem_cons.mp hx with rfl | hx
      · exact h1
      · exact h2 x hx
    · rw [if_neg h]
      obtain ⟨h1, h2⟩ := minByKey_le rest best
      refine ⟨h1, ?_⟩
      intro x hx
      rcases List.mem_cons.mp hx with rfl | hx
      · exact le_trans h1 (le_of_not_lt h)
      · exact h2 x hx

/-- Claim C2: for every list of slots for a date, slot selection keeps only
the slots whose parsed start time is strictly later than 13:00 (780 minutes
since midnight) and chooses among them the slot with the earliest start
time; if no slot starts strictly after 13:00 the date is skipped
(`selectSlot` returns `none`); in particular a slot starting at or before
13:00 is never chosen. -/
theorem c2_slot_selection (slots : List Slot) :
    (selectSlot slots = none ↔ ∀ s ∈ slots, ∀ t, parse_time s.time = some t → t ≤ 780) ∧
    ∀ sel, selectSlot slots = some sel →
      sel ∈ slots ∧ ∃ t, parse_time sel.time = some t ∧ 780 < t ∧
        ∀ s ∈ slots, ∀ t2, parse_time s.time = some t2 → 780 < t2 → t ≤ t2 := by
  have hred : selectSlot slots =
      match slots.filter slotValid with
      | [] => none
      | v :: vs => some (minByKey v vs) := rfl
  constructor
  · cases hv : slots.filter slotValid with
    | nil =>
      rw [hred, hv]
      constructor
      · intro _ s hs t hpt
        by_contra hgt
        push_neg at hgt
        have h1 : slotValid s = true := (slotValid_iff s).mpr ⟨t, hpt, hgt⟩
        have h2 : s ∈ slots.filter slotValid := List.mem_filter.mpr ⟨hs, h1⟩
        rw [hv] at h2
        exact absurd h2 (List.not_mem_nil s)
      · intro _
        rfl
    | cons v vs =>
      rw [hred, hv]
      constructor
      · intro h
        exact absurd h (by simp)
      · intro hall
        have hvmem : v ∈ slots.filter slotValid := by
          rw [hv]
          exact List.mem_cons_self v vs
        have hvs : v ∈ slots := (List.mem_filter.mp hvmem).1
        obtain ⟨t, hpt, hgt⟩ := (slotValid_iff v).mp (List.mem_filter.mp hvmem).2
        exact absurd (hall v hvs t hpt) (by omega)
  · intro sel hsel
    rw [hred] at hsel
    cases hv : slots.filter slotValid with
    | nil =>
      rw [hv] at hsel
      exact absurd hsel (by simp)
    | cons v vs =>
      rw [hv] at hsel
      have hselv : sel = minByKey v vs := (Option.some.inj hsel).symm
      have hmem : sel ∈ v :: vs := by
        rcases minByKey_mem vs v with h1 | h1
        · rw [hselv, h1]
          exact List.mem_cons_self v vs
        · rw [hselv]
          exact List.mem_cons_of_mem v h1
      have hmemf : sel ∈ slots.filter slotValid := by
        rw [hv]
        exact hmem
      have hins : sel ∈ slots := (List.mem_filter.mp hmemf).1
      obtain ⟨t, hpt, hgt⟩ := (slotValid_iff sel).mp (List.mem_filter.mp hmemf).2
      refine ⟨hins, t, hpt, hgt, ?_⟩
      intro s hs t2 hpt2 hgt2
      have hsf : s ∈ slots.filter slotValid :=
        List.mem_filter.mpr ⟨hs, (slotValid_iff s).mpr ⟨t2, hpt2, hgt2⟩⟩
      rw [hv] at hsf
      obtain ⟨h1, h2⟩ := minByKey_le vs v
      rw [← hselv, slotKey_eq hpt] at h1 h2
      rcases List.mem_cons.mp hsf with rfl | hsf2
      · rw [slotKey_eq hpt2] at h1
        exact h1
      · have h3 := h2 s hsf2
        rw [slotKey_eq hpt2] at h3
        exact h3

/-- Concrete slot list for the C2 witness. -/
def slots0 : List Slot :=
  [⟨"12:30 Uhr", 3, "u1"⟩, ⟨"14:30 Uhr", 2, "u2"⟩, ⟨"13:45 Uhr", 1, "u3"⟩]

/-- The slot `selectSlot` picks from `slots0`. -/
def slot1345 : Slot := ⟨"13:45 Uhr", 1, "u3"⟩

/-- Witness for C2: on `slots0` the selected slot is the 13:45 one, it is
after 13:00, and its time is minimal among the post-13:00 slots. -/
theorem c2_slot_selection_witness :
    slot1345 ∈ slots0 ∧ ∃ t, parse_time slot1345.time = some t ∧ 780 < t ∧
      ∀ s ∈ slots0, ∀ t2, parse_time s.time = some t2 → 780 < t2 → t ≤ t2 :=
  (c2_slot_selection slots0).2 slot1345 rfl

/-! ## Lemmas: nearby dates -/

/-- The probing loop is the first-match search over the offsets, restricted
to days strictly after today. -/
theorem nearbyLoop_eq (targetDay : Nat) (avail : List AvailDate) (nowMin : Nat) :
    ∀ offs : List Int,
      nearbyLoop targetDay avail nowMin offs =
        ((offs.map (fun o => (targetDay : Int) + o)).filter
            (fun d => decide ((dayOf nowMin : Int) < d))).find?
          (fun d => avail.any (fun a => (a.date : Int) == d)) := by
  intro offs
  induction offs with
  | nil => rfl
  | cons o rest ih =>
    simp only [nearbyLoop, List.map_cons, List.filter_cons]
    by_cases h : (targetDay : Int) + o ≤ (dayOf nowMin : Int)
    · rw [if_pos h]
      have hd : decide ((dayOf nowMin : Int) < (targetDay : Int) + o) = false := by
        simp
        omega
      rw [hd]
      simpa using ih
    · rw [if_neg h]
      have hd : decide ((dayOf nowMin : Int) < (targetDay : Int) + o) = true := by
        simp
        omega
      rw [hd, if_pos rfl]
      simp only [List.find?_cons]
      by_cases h2 : avail.any (fun a => (a.date : Int) == (targetDay : Int) + o) = true
      · rw [h2]
        rfl
      · rw [Bool.not_eq_true] at h2
        rw [h2]
        exact ih

/-- Claim C6: `try_nearby_dates` probes the day offsets in the literal order
`[-5,-4,-3,-2,-1,1,2,3,4,5]`, skips any offset date not strictly after the
current date, and returns the first probed date present in the open-date
set (or `none` when none matches). -/
theorem c6_try_nearby_dates (targetDay : Nat) (avail : List AvailDate) (nowMin : Nat) :
    try_nearby_dates targetDay avail nowMin =
      ((([-5, -4, -3, -2, -1, 1, 2, 3, 4, 5] : List Int).map
            (fun o => (targetDay : Int) + o)).filter
          (fun d => decide ((dayOf nowMin : Int) < d))).find?
        (fun d => avail.any (fun a => (a.date : Int) == d)) :=
  nearbyLoop_eq targetDay avail nowMin _

/-! ## Lemmas: minimum gap -/

/-- The gap loop rejects exactly when some plasma event in its input lies at
day delta at most 2 before the target. -/
theorem gapLoop_false_iff (td : Nat) :
    ∀ l : List Event,
      (gapLoop td l).1 = false ↔
        ∃ e ∈ l, isPlasmaEvent e = true ∧ (td : Int) - (dayOf e.start : Int) ≤ 2 := by
  intro l
  induction l with
  | nil => simp [gapLoop]
  | cons e rest ih =>
    simp only [gapLoop]
    by_cases hp : isPlasmaEvent e = true
    · rw [if_pos hp]
      by_cases hd : (td : Int) - (dayOf e.start : Int) ≤ 2
      · rw [if_pos hd]
        constructor
        · intro _
          exact ⟨e, List.mem_cons_self e rest, hp, hd⟩
        · intro _
          rfl
      · rw [if_neg hd]
        rw [ih]
        constructor
        · rintro ⟨x, hx, hxp, hxd⟩
          exact ⟨x, List.mem_cons_of_mem e hx, hxp, hxd⟩
        · rintro ⟨x, hx, hxp, hxd⟩
          rcases List.mem_cons.mp hx with rfl | hx2
          · exact absurd hxd hd
          · exact ⟨x, hx2, hxp, hxd⟩
    · rw [if_neg hp]
      rw [ih]
      constructor
      · rintro ⟨x, hx, hxp, hxd⟩
        exact ⟨x, List.mem_cons_of_mem e hx, hxp, hxd⟩
      · rintro ⟨x, hx, hxp, hxd⟩
        rcases List.mem_cons.mp hx with rfl | hx2
        · exact absurd hxp hp
        · exact ⟨x, hx2, hxp, hxd⟩

/-- Membership in the modelled calendar query. -/
theorem mem_listEvents (cal : List Event) (tmin tmax : Nat) (e : Event) :
    e ∈ listEvents cal tmin tmax ↔ e ∈ cal ∧ tmin ≤ e.start ∧ e.start < tmax := by
  unfold listEvents
  rw [(List.perm_insertionSort _ _).mem_iff, List.mem_filter]
  simp

/-- The plasma event of the C3 example: 2025-06-10 at 10:00. -/
def eventJun10 : Event :=
  ⟨"Plasma Donation Appointment", "", toOrdinal 2025 6 10 * 1440 + 600⟩

/-- Claim C3: `check_minimum_gap` rejects exactly when some matching plasma
event within the queried 3-day window before the candidate has day delta at
most 2; a plasma event on 2025-06-10 blocks candidate 2025-06-12 (delta 2)
but not 2025-06-13 (delta 3). -/
theorem c3_check_minimum_gap :
    (∀ (cal : List Event) (targetDay : Nat),
      (check_minimum_gap cal targetDay).1 = false ↔
        ∃ e ∈ cal, targetDay * 1440 - 3 * 1440 ≤ e.start ∧ e.start < targetDay * 1440 ∧
          isPlasmaEvent e = true ∧ (targetDay : Int) - (dayOf e.start : Int) ≤ 2) ∧
    check_minimum_gap [eventJun10] (toOrdinal 2025 6 12) =
      (false, some (toOrdinal 2025 6 10)) ∧
    check_minimum_gap [eventJun10] (toOrdinal 2025 6 13) = (true, none) := by
  refine ⟨?_, by decide, by decide⟩
  intro cal targetDay
  unfold check_minimum_gap
  rw [gapLoop_false_iff]
  constructor
  · rintro ⟨e, he, hp, hd⟩
    rw [mem_listEvents] at he
    exact ⟨e, he.1, he.2.1, he.2.2, hp, hd⟩
  · rintro ⟨e, he, h1, h2, hp, hd⟩
    exact ⟨e, (mem_listEvents cal _ _ e).mpr ⟨he, h1, h2⟩, hp, hd⟩

/-- Witness for C3: the rejection at candidate 2025-06-12 exhibits, via the
characterisation, the blocking event with delta 2, and 2025-06-13 is not
blocked. -/
theorem c3_check_minimum_gap_witness :
    (∃ e ∈ [eventJun10],
      toOrdinal 2025 6 12 * 1440 - 3 * 1440 ≤ e.start ∧
        e.start < toOrdinal 2025 6 12 * 1440 ∧ isPlasmaEvent e = true ∧
        (toOrdinal 2025 6 12 : Int) - (dayOf e.start : Int) ≤ 2) ∧
    check_minimum_gap [eventJun10] (toOrdinal 2025 6 13) = (true, none) :=
  ⟨(c3_check_minimum_gap.1 [eventJun10] (toOrdinal 2025 6 12)).mp
      (by rw [c3_check_minimum_gap.2.1]),
    c3_check_minimum_gap.2.2⟩

/-! ## Lemmas: target-date generation -/

/-- Congruence for `flatMap` over pointwise-equal functions. -/
theorem flatMapCongr {α β : Type} :
    ∀ (l : List α) (f g : α → List β), (∀ a ∈ l, f a = g a) → l.flatMap f = l.flatMap g := by
  intro l f g
  induction l with
  | nil =>
    intro _
    rfl
  | cons a t ih =>
    intro h
    rw [List.flatMap_cons, List.flatMap_cons, h a (List.mem_cons_self a t),
      ih (fun x hx => h x (List.mem_cons_of_mem a hx))]

/-- The weekday snap of `get_target_dates` lands on a Monday. -/
theorem weekdayOf_first (s : Nat) :
    weekdayOf (if weekdayOf s = 0 then s else s + (7 - weekdayOf s) % 7 * 1440) = 0 := by
  unfold weekdayOf
  by_cases h : (s / 1440 + 6) % 7 = 0
  · rw [if_pos h]
    exact h
  · rw [if_neg h]
    omega

/-- The date `firstMondayOf` falls on a Monday. -/
theorem weekdayOf_firstMonday (now : DateTime) : weekdayOf (firstMondayOf now) = 0 := by
  unfold firstMondayOf
  exact weekdayOf_first (startOf now)

/-- On a Monday, a two-appointment week contributes the Monday plus the
Thursday three days later (when it is at or before the window end). -/
theorem weekBody_monday_true (nowMin augEnd m : Nat) (h : weekdayOf m = 0) :
    weekBody nowMin augEnd m true =
      ((m :: (if m + 3 * 1440 ≤ augEnd then [m + 3 * 1440] else [])).filter
          (fun d => decide (nowMin < d))).map dayOf := by
  have h3 : weekdayOf (m + 3 * 1440) = 3 := by
    unfold weekdayOf at h ⊢
    omega
  by_cases hth : m + 3 * 1440 ≤ augEnd
  · simp [weekBody, h, h3, hth]
  · simp [weekBody, h, h3, hth]

/-- On a Monday, a one-appointment week contributes just the Monday. -/
theorem weekBody_monday_false (nowMin augEnd m : Nat) (h : weekdayOf m = 0) :
    weekBody nowMin augEnd m false =
      (([m].filter (fun d => decide (nowMin < d))).map dayOf) := by
  simp [weekBody, h]

/-- The fuelled week loop refines an indexed `flatMap` over the week count,
with the two-appointment flag given by the parity of the index. -/
theorem bookWeeks_eq (nowMin augEnd : Nat) :
    ∀ (fuel cur : Nat) (two : Bool),
      bookWeeks nowMin augEnd fuel cur two =
        (List.range fuel).flatMap (fun i =>
          if cur + i * (7 * 1440) ≤ augEnd then
            weekBody nowMin augEnd (cur + i * (7 * 1440)) (xor two (decide (i % 2 = 1)))
          else []) := by
  intro fuel
  induction fuel with
  | zero =>
    intro cur two
    rfl
  | succ n ih =>
    intro cur two
    simp only [bookWeeks]
    by_cases hc : cur ≤ augEnd
    · rw [if_pos hc, ih (cur + 7 * 1440) (!two)]
      rw [List.range_succ_eq_map, List.flatMap_cons, List.flatMap_map]
      congr 1
      · rw [if_pos (by omega : cur + 0 * (7 * 1440) ≤ augEnd)]
        have e1 : cur + 0 * (7 * 1440) = cur := by omega
        have e2 : xor two (decide (0 % 2 = 1)) = two := by simp
        rw [e1, e2]
      · apply flatMapCongr
        intro i _
        have harith : cur + 7 * 1440 + i * (7 * 1440) = cur + Nat.succ i * (7 * 1440) := by
          ring_nf
          omega
        have hxor : xor (!two) (decide (i % 2 = 1)) = xor two (decide (Nat.succ i % 2 = 1)) := by
          by_cases h : i % 2 = 1
          · have h2 : (i + 1) % 2 = 0 := by omega
            simp [h, h2]
          · have h1 : i % 2 = 0 := by omega
            have h2 : (i + 1) % 2 = 1 := by omega
            simp [h1, h2]
        rw [harith, hxor]
    · rw [if_neg hc]
      symm
      rw [List.flatMap_eq_nil_iff]
      intro i _
      rw [if_neg (by omega)]

/-- Claim C4: `get_target_dates` iterates at most 8 weeks from the first
Monday on or after `max(now, May 1)`, alternating a two-appointment week
(the Monday plus a date 3 days later, kept while at or before Aug 31) with
a one-appointment week, starting with a two-appointment week, and the
returned list never has more than 16 dates. -/
theorem c4_get_target_dates (now : DateTime) :
    get_target_dates now =
      ((List.range 8).flatMap (fun i =>
        if firstMondayOf now + i * (7 * 1440) ≤ augEndOf now then
          ((if i % 2 = 0 then
              (firstMondayOf now + i * (7 * 1440)) ::
                (if firstMondayOf now + i * (7 * 1440) + 3 * 1440 ≤ augEndOf now then
                  [firstMondayOf now + i * (7 * 1440) + 3 * 1440]
                else [])
            else [firstMondayOf now + i * (7 * 1440)]).filter
              (fun d => decide (toMin now < d))).map dayOf
        else [])).take 16 ∧
    (get_target_dates now).length ≤ 16 := by
  have hmon : ∀ i : Nat, weekdayOf (firstMondayOf now + i * (7 * 1440)) = 0 := by
    intro i
    have h0 : weekdayOf (firstMondayOf now) = 0 := weekdayOf_firstMonday now
    unfold weekdayOf at h0 ⊢
    omega
  constructor
  · unfold get_target_dates
    rw [bookWeeks_eq]
    congr 1
    apply flatMapCongr
    intro i _
    by_cases hc : firstMondayOf now + i * (7 * 1440) ≤ augEndOf now
    · rw [if_pos hc, if_pos hc]
      by_cases hp : i % 2 = 1
      · rw [show xor true (decide (i % 2 = 1)) = false from by simp [hp]]
        rw [weekBody_monday_false _ _ _ (hmon i)]
        rw [if_neg (by omega : ¬i % 2 = 0)]
      · rw [show xor true (decide (i % 2 = 1)) = true from by simp [hp]]
        rw [weekBody_monday_true _ _ _ (hmon i)]
        rw [if_pos (by omega : i % 2 = 0)]
    · rw [if_neg hc, if_neg hc]
  · unfold get_target_dates
    rw [List.length_take]
    omega

/-- Final arithmetic of C5: a kept datetime is congruent mod 1440 to the
first Monday, hence to `max(now, May 1)`; in either case of the `max` its
calendar day starts strictly after `now`. -/
theorem dayFutureArith (now : DateTime) (d : Nat)
    (hmod : d % 1440 = firstMondayOf now % 1440) (hlt : toMin now < d) :
    toMin now < dayOf d * 1440 := by
  have hfm : firstMondayOf now % 1440 = startOf now % 1440 := by
    unfold firstMondayOf
    by_cases h : weekdayOf (startOf now) = 0
    · rw [if_pos h]
    · rw [if_neg h]
      omega
  have hms : mayStartOf now % 1440 = 0 := by
    unfold mayStartOf
    omega
  unfold startOf at hfm
  unfold dayOf
  rcases Nat.le_total (toMin now) (mayStartOf now) with hle | hle
  · rw [Nat.max_eq_right hle] at hfm
    omega
  · rw [Nat.max_eq_left hle] at hfm
    omega

/-- Claim C5: every date returned by `get_target_dates` is strictly later
than the run's current timestamp — the midnight opening its calendar day is
already past `now`. -/
theorem c5_dates_future (now : DateTime) (o : Nat) (ho : o ∈ get_target_dates now) :
    toMin now < o * 1440 := by
  unfold get_target_dates at ho
  have ho2 := List.mem_of_mem_take ho
  rw [bookWeeks_eq, List.mem_flatMap] at ho2
  obtain ⟨i, _, hmem⟩ := ho2
  by_cases hc : firstMondayOf now + i * (7 * 1440) ≤ augEndOf now
  swap
  · rw [if_neg hc] at hmem
    exact absurd hmem (List.not_mem_nil o)
  rw [if_pos hc] at hmem
  have hmon : weekdayOf (firstMondayOf now + i * (7 * 1440)) = 0 := by
    have h0 := weekdayOf_firstMonday now
    unfold weekdayOf at h0 ⊢
    omega
  by_cases hp : i % 2 = 1
  · rw [show xor true (decide (i % 2 = 1)) = false from by simp [hp],
      weekBody_monday_false _ _ _ hmon, List.mem_map] at hmem
    obtain ⟨d, hd, rfl⟩ := hmem
    rw [List.mem_filter] at hd
    obtain ⟨hdl, hnow⟩ := hd
    rw [decide_eq_true_eq] at hnow
    have hdm : d = firstMondayOf now + i * (7 * 1440) := by simpa using hdl
    exact dayFutureArith now d (by omega) hnow
  · rw [show xor true (decide (i % 2 = 1)) = true from by simp [hp],
      weekBody_monday_true _ _ _ hmon, List.mem_map] at hmem
    obtain ⟨d, hd, rfl⟩ := hmem
    rw [List.mem_filter] at hd
    obtain ⟨hdl, hnow⟩ := hd
    rw [decide_eq_true_eq] at hnow
    have hdm : d = firstMondayOf now + i * (7 * 1440) ∨
        d = firstMondayOf now + i * (7 * 1440) + 3 * 1440 := by
      rcases List.mem_cons.mp hdl with h | h
      · exact Or.inl h
      · by_cases hc2 : firstMondayOf now + i * (7 * 1440) + 3 * 1440 ≤ augEndOf now
        · rw [if_pos hc2] at h
          exact Or.inr (by simpa using h)
        · rw [if_neg hc2] at h
          exact absurd h (List.not_mem_nil d)
    exact dayFutureArith now d (by omega) hnow

/-- The concrete run time of the C5 witness: 2025-05-02, 10:00 (a Friday). -/
def now0 : DateTime := ⟨2025, 5, 2, 600⟩

/-- Witness for C5: 2025-05-05 (ordinal 739376) is generated for `now0` and
its midnight lies strictly after `now0`. -/
theorem c5_dates_future_witness :
    739376 ∈ get_target_dates now0 ∧ toMin now0 < 739376 * 1440 :=
  ⟨by decide, c5_dates_future now0 739376 (by decide)⟩

/-! ## Claims about the booking gate and the module run -/

/-- Claim C1: the allowed new-booking count is
`min(min(16, 60 - trailing), 5 - future)`; when it is non-positive the run
raises before the login/booking steps, reporting the annual limit when the
trailing count is at least 60 and the future-bookings limit otherwise (the
`try` body then performs only the two calendar-count queries, never invoking
the booking part); and trailing 58 with future 2 allows exactly 2. -/
theorem c1_booking_gate (plasma_count future_count : Nat) :
    (0 < min (min 16 (60 - (plasma_count : Int))) (5 - (future_count : Int)) →
      computeBookingGate plasma_count future_count =
        .ok (min (min 16 (60 - (plasma_count : Int))) (5 - (future_count : Int)))) ∧
    (min (min 16 (60 - (plasma_count : Int))) (5 - (future_count : Int)) ≤ 0 →
      computeBookingGate plasma_count future_count =
        .error (if 60 ≤ plasma_count then
            s!"Cannot book: Already have {plasma_count} plasma appointments in past 365 days, exceeding limit of 60"
          else
            s!"Cannot book: Already have {future_count} future appointments, exceeding limit of 5 active bookings") ∧
      ∀ (now : DateTime) (rest : Int → List Eff × Option String),
        get_target_dates now ≠ [] →
          tryBody now plasma_count future_count rest =
            ([Eff.net, Eff.net],
              some (if 60 ≤ plasma_count then
                  s!"Cannot book: Already have {plasma_count} plasma appointments in past 365 days, exceeding limit of 60"
                else
                  s!"Cannot book: Already have {future_count} future appointments, exceeding limit of 5 active bookings"))) ∧
    computeBookingGate 58 2 = .ok 2 := by
  have hred : computeBookingGate plasma_count future_count =
      if min (min 16 (60 - (plasma_count : Int))) (5 - (future_count : Int)) ≤ 0 then
        (if 60 ≤ plasma_count then
          Except.error
            s!"Cannot book: Already have {plasma_count} plasma appointments in past 365 days, exceeding limit of 60"
        else
          Except.error
            s!"Cannot book: Already have {future_count} future appointments, exceeding limit of 5 active bookings")
      else
        Except.ok (min (min 16 (60 - (plasma_count : Int))) (5 - (future_count : Int))) := rfl
  refine ⟨?_, ?_, rfl⟩
  · intro h
    rw [hred, if_neg (by omega)]
  · intro h
    have hgate : computeBookingGate plasma_count future_count =
        .error (if 60 ≤ plasma_count then
            s!"Cannot book: Already have {plasma_count} plasma appointments in past 365 days, exceeding limit of 60"
          else
            s!"Cannot book: Already have {future_count} future appointments, exceeding limit of 5 active bookings") := by
      rw [hred, if_pos h]
      by_cases h60 : 60 ≤ plasma_count
      · rw [if_pos h60, if_pos h60]
      · rw [if_neg h60, if_neg h60]
    refine ⟨hgate, ?_⟩
    intro now rest hne
    unfold tryBody
    rw [if_neg hne, hgate]

/-- Witness for C1: with 60 trailing and 7 future appointments the gate
reports the annual limit, and trailing 58 with future 2 allows 2. -/
theorem c1_booking_gate_witness :
    computeBookingGate 60 7 =
      Except.error
        s!"Cannot book: Already have {(60 : Nat)} plasma appointments in past 365 days, exceeding limit of 60" ∧
    computeBookingGate 58 2 = Except.ok 2 :=
  ⟨((c1_booking_gate 60 7).2.1 (by decide)).1, (c1_booking_gate 58 2).2.2⟩

/-- Claim C8: when any required environment variable is missing or empty
(the only ill-formedness the script can observe for `APPOINTMENT_LOCATION`),
the run fails with the configuration error and its effect trace is empty —
in particular no network call is performed. -/
theorem c8_env_validation (env : Env) (argvOk : Bool) (now : DateTime)
    (plasma_count future_count : Nat) (rest : Int → List Eff × Option String)
    (h : envPresent env = false) :
    runScript env argvOk now plasma_count future_count rest =
      ⟨[], .err "Missing required environment variables", false⟩ := by
  unfold runScript
  rw [if_pos h]

/-- Environment with an empty `APPOINTMENT_LOCATION` for the C8 witness. -/
def envNoLoc : Env :=
  ⟨some "Mustermann", some "12345", some "a@b.c", some "cal", some "e30=", some ""⟩

/-- Witness for C8: with `APPOINTMENT_LOCATION` empty the run aborts with
the configuration error and an empty effect trace. -/
theorem c8_env_validation_witness :
    envPresent envNoLoc = false ∧
    runScript envNoLoc true now0 0 0 (fun _ => ([], none)) =
      ⟨[], .err "Missing required environment variables", false⟩ :=
  ⟨rfl, c8_env_validation envNoLoc true now0 0 0 (fun _ => ([], none)) rfl⟩

/-- A complete, well-formed environment (`"e30="` decodes to `{}`). -/
def envOk : Env :=
  ⟨some "Mustermann", some "12345", some "a@b.c", some "cal", some "e30=", some "Leipzig"⟩

/-- Counterexample to C9 as stated: with a valid environment but
command-line arguments that make `argparse` exit (`--help` or an unknown
flag), the temporary credential file is created and the process exits with
the file still on disk — the `sys.exit` happens after the file is written
(source line 34) but before the `try/finally` (source line 256) is entered. -/
theorem c9_counterexample :
    (runScript envOk false now0 0 0 (fun _ => ([], none))).trace = [Eff.tmpCreate] ∧
    (runScript envOk false now0 0 0 (fun _ => ([], none))).outcome = Outcome.exitDuringArgs ∧
    (runScript envOk false now0 0 0 (fun _ => ([], none))).tempOnDisk = true :=
  ⟨rfl, rfl, rfl⟩

/-- Claim C9 (amended): for every run whose command-line arguments parse
(so the `try/finally` is reached, or the failure happens before the file is
created), the temporary credential file is not on disk after the process
exits, whether the run succeeded or terminated with any error. -/
theorem c9_amended_cleanup (env : Env) (now : DateTime) (plasma_count future_count : Nat)
    (rest : Int → List Eff × Option String) :
    (runScript env true now plasma_count future_count rest).tempOnDisk = false := by
  unfold runScript
  by_cases h1 : envPresent env = false
  · rw [if_pos h1]
  · rw [if_neg h1]
    by_cases h2 : emailOk (env.email.getD "") = false
    · rw [if_pos h2]
    · rw [if_neg h2]
      cases hd : decodeServiceAccount (env.serviceJson.getD "") with
      | error e => rfl
      | ok v => rfl

/-- Claim C10: `decode_reservation_context` is total: it returns the decoded
object on pipeline success and the empty dict on any pipeline failure, with
concrete malformed inputs failing at the base64, UTF-8 and JSON stages
respectively all yielding the empty dict, and a valid input yielding its
decoded object. -/
theorem c10_decode_reservation_context :
    (∀ s : String,
      (∀ v, pyJsonPipeline s = .ok v → decode_reservation_context s = v) ∧
      (∀ e, pyJsonPipeline s = .error e → decode_reservation_context s = PyVal.obj [])) ∧
    decode_reservation_context "abc" = PyVal.obj [] ∧
    decode_reservation_context "/w==" = PyVal.obj [] ∧
    decode_reservation_context "ew==" = PyVal.obj [] ∧
    decode_reservation_context "eyJhbnN3ZXIiOjQyfQ==" =
      PyVal.obj [("answer", PyVal.num "42")] := by
  refine ⟨?_, rfl, rfl, rfl, rfl⟩
  intro s
  constructor
  · intro v hv
    unfold decode_reservation_context
    rw [hv]
  · intro e he
    unfold decode_reservation_context
    rw [he]

/-- Witness for C10: the valid input decodes to its object through the
pipeline and through `decode_reservation_context`. -/
theorem c10_decode_reservation_context_witness :
    pyJsonPipeline "eyJhbnN3ZXIiOjQyfQ==" =
      Except.ok (PyVal.obj [("answer", PyVal.num "42")]) ∧
    decode_reservation_context "eyJhbnN3ZXIiOjQyfQ==" =
      PyVal.obj [("answer", PyVal.num "42")] :=
  ⟨rfl, (c10_decode_reservation_context.1 "eyJhbnN3ZXIiOjQyfQ==").1 _ rfl⟩

/-! ## Claims about CSRF-token extraction -/

/-- A page whose only token is in an inline script. -/
def docScriptOnly : PageDoc := ⟨[], none, some "tok"⟩

/-- Counterexample to C7 as stated: on the reservation step the inline
script yields the non-empty token `"tok"`, yet the step fails fatally — the
reservation-form extraction (source lines 577-588) has no inline-script
fallback, so it is false that every token-extraction step tries the script
pattern and fails only when all the listed locators yield no token. -/
theorem c7_counterexample :
    docScriptOnly.scriptToken = some "tok" ∧ "tok" ≠ "" ∧
    extract_csrf_reservation docScriptOnly = .error "No CSRF token found" ∧
    extract_csrf_login docScriptOnly = .ok "tok" :=
  ⟨rfl, by decide, rfl, rfl⟩

/-- Claim C7 (amended): both extraction steps try the four input names
`_csrf`, `_token`, `csrf_token`, `authenticity_token` in that order and
take the first input element present under any of them; its non-empty value
is the token, an empty value falls through to the meta tag (later input
names are not consulted), and a missing `value` attribute aborts with a
`KeyError`.  Then the meta tag's non-empty content is used.  Only the
login step then tries the inline-script pattern; the reservation step has
no script fallback.  Each step fails with `"No CSRF token found"` exactly
when every stage it has yields no non-empty token. -/
theorem c7_csrf_priority (doc : PageDoc) :
    (csrfInputOf doc =
        ["_csrf", "_token", "csrf_token", "authenticity_token"].findSome? (findInput doc)) ∧
    (∀ nm v, csrfInputOf doc = some (nm, some v) → v ≠ "" →
      extract_csrf_login doc = .ok v ∧ extract_csrf_reservation doc = .ok v) ∧
    (∀ nm, csrfInputOf doc = some (nm, none) →
      extract_csrf_login doc = .error "KeyError: value" ∧
        extract_csrf_reservation doc = .error "KeyError: value") ∧
    ((csrfInputOf doc = none ∨ ∃ nm, csrfInputOf doc = some (nm, some "")) →
      (∀ c, doc.metaCsrf = some c → c ≠ "" →
        extract_csrf_login doc = .ok c ∧ extract_csrf_reservation doc = .ok c) ∧
      ((doc.metaCsrf = none ∨ doc.metaCsrf = some "") →
        (∀ t, doc.scriptToken = some t → t ≠ "" →
          extract_csrf_login doc = .ok t ∧
            extract_csrf_reservation doc = .error "No CSRF token found") ∧
        ((doc.scriptToken = none ∨ doc.scriptToken = some "") →
          extract_csrf_login doc = .error "No CSRF token found" ∧
            extract_csrf_reservation doc = .error "No CSRF token found"))) := by
  refine ⟨?_, ?_, ?_, ?_⟩
  · unfold csrfInputOf
    cases h1 : findInput doc "_csrf" <;> cases h2 : findInput doc "_token" <;>
      cases h3 : findInput doc "csrf_token" <;> cases h4 : findInput doc "authenticity_token" <;>
        simp [List.findSome?_cons, List.findSome?_nil, h1, h2, h3, h4, Option.orElse]
  · intro nm v hcv hv
    have hfi : csrfFromInputs doc = .ok (some v) := by
      unfold csrfFromInputs
      rw [hcv]
    have htr : optTruthy (some v) = true := by
      simp [optTruthy, hv]
    constructor
    · unfold extract_csrf_login
      rw [hfi]
      simp [htr]
    · unfold extract_csrf_reservation
      rw [hfi]
      simp [htr]
  · intro nm hcv
    have hfi : csrfFromInputs doc = .error "KeyError: value" := by
      unfold csrfFromInputs
      rw [hcv]
    constructor
    · unfold extract_csrf_login
      rw [hfi]
    · unfold extract_csrf_reservation
      rw [hfi]
  · intro hblank
    have hfi : ∃ t1, csrfFromInputs doc = .ok t1 ∧ optTruthy t1 = false := by
      rcases hblank with h | ⟨nm, h⟩
      · exact ⟨none, by unfold csrfFromInputs; rw [h], rfl⟩
      · exact ⟨some "", by unfold csrfFromInputs; rw [h], rfl⟩
    obtain ⟨t1, hfi, ht1⟩ := hfi
    constructor
    · intro c hc hcne
      have htr : optTruthy (some c) = true := by
        simp [optTruthy, hcne]
      constructor
      · unfold extract_csrf_login
        rw [hfi]
        simp [ht1, hc, htr]
      · unfold extract_csrf_reservation
        rw [hfi]
        simp [ht1, hc, htr]
    · intro hmeta
      have hm2 : optTruthy doc.metaCsrf = false := by
        rcases hmeta with h | h <;> rw [h] <;> rfl
      constructor
      · intro t ht htne
        have htr : optTruthy (some t) = true := by
          simp [optTruthy, htne]
        constructor
        · unfold extract_csrf_login
          rw [hfi]
          simp [ht1, hm2, ht, htr]
        · unfold extract_csrf_reservation
          rw [hfi]
          simp [ht1, hm2]
      · intro hscript
        have hs2 : optTruthy doc.scriptToken = false := by
          rcases hscript with h | h <;> rw [h] <;> rfl
        constructor
        · unfold extract_csrf_login
          rw [hfi]
          simp [ht1, hm2, hs2]
        · unfold extract_csrf_reservation
          rw [hfi]
          simp [ht1, hm2]

/-- Witness for C7 (amended): a page whose `_csrf` input is empty and whose
`_token` input holds `"tok"` falls through to the failure — the later input
names are never consulted — while a meta-tag token is honoured after an
empty first input. -/
theorem c7_csrf_priority_witness :
    extract_csrf_login ⟨[("_csrf", some ""), ("_token", some "tok")], none, none⟩ =
      .error "No CSRF token found" ∧
    extract_csrf_login ⟨[("_csrf", some "")], some "meta-tok", none⟩ = .ok "meta-tok" := by
  constructor
  · exact (((c7_csrf_priority ⟨[("_csrf", some ""), ("_token", some "tok")], none, none⟩).2.2.2
      (Or.inr ⟨"_csrf", rfl⟩)).2 (Or.inl rfl)).2 (Or.inl rfl) |>.1
  · exact ((c7_csrf_priority ⟨[("_csrf", some "")], some "meta-tok", none⟩).2.2.2
      (Or.inr ⟨"_csrf", rfl⟩)).1 "meta-tok" rfl (by decide) |>.1

end Donor
